import Mathlib

/-!
Shallow embedding of `corelib/src/Signature.cpp` (the map-node entity of a
visual mapping system) and verification of its specified behaviour.

Modelling conventions:
* `std::map<int, V>` is modelled as a lookup function `Int → Option V`
  (`KMap V`); `std::map::insert` inserts only when the key is absent and
  keeps the stored value otherwise, which `mapInsert` reproduces.
* `std::multimap<int, V>` is modelled as a list of key/value pairs
  (`MMap V`); only per-key multiplicities are observable for the verified
  properties, so list order is irrelevant.
* C `float` intrinsics are modelled as `ℚ`; the verified conditions are
  sign comparisons, which agree with the rational order on finite floats.
* The fatal assertion `UASSERT_MSG` is modelled by returning `Option`:
  `none` is the assertion failure.
-/

namespace RtabmapSig

/-- A `std::map<int, V>` observed through key lookup. -/
abbrev KMap (V : Type) : Type := Int → Option V

/-- Embeds `std::map::insert(make_pair(k, v))`: inserts only if `k` is absent; when
`k` is already bound the stored value is kept and `v` is discarded. -/
def mapInsert {V : Type} (k : Int) (v : V) (m : KMap V) : KMap V :=
  fun j => if j = k then some ((m k).getD v) else m j

/-- Embeds `std::map::erase(k)` (by key). -/
def mapErase {V : Type} (k : Int) (m : KMap V) : KMap V :=
  fun j => if j = k then none else m j

/-- A `std::multimap<int, V>` as a list of entries. -/
abbrev MMap (V : Type) : Type := List (Int × V)

/-- Embeds `uValues(m, k)`: the list of values stored under key `k`. -/
def uValues {V : Type} (m : MMap V) (k : Int) : List V :=
  (m.filter (fun p => p.1 == k)).map Prod.snd

/-- Embeds `std::multimap::erase(k)` (by key): removes every entry under `k`. -/
def mmErase {V : Type} (m : MMap V) (k : Int) : MMap V :=
  m.filter (fun p => p.1 != k)

/-- Number of entries stored under key `k`. -/
def keyCount {V : Type} (m : MMap V) (k : Int) : Nat :=
  (m.filter (fun p => p.1 == k)).length

/-- The node ("Signature") state: feature maps, sensor payload, calibration,
pose-graph edges and dirty flags, as in `Signature.h`/`Signature.cpp`.
`T` is the transform type, `KP` the 2D keypoint type, `P3` the 3D point type. -/
structure Signature (T KP P3 : Type) where
  id : Int
  mapId : Int
  weight : Int
  saved : Bool
  modified : Bool
  neighborsModified : Bool
  enabled : Bool
  words : MMap KP
  words3 : MMap P3
  wordsChanged : List (Int × Int)
  image : List Nat
  depth : List Nat
  depth2D : List Nat
  fx : ℚ
  fy : ℚ
  cx : ℚ
  cy : ℚ
  pose : T
  localTransform : T
  neighbors : KMap T
  loopClosureIds : KMap T
  childLoopClosureIds : KMap T

namespace Signature

variable {T KP P3 : Type}

/-- Embeds `Signature::addNeighbor`: `_neighbors.insert(pair(neighbor, transform));
_neighborsModified = true;`. -/
def addNeighbor (s : Signature T KP P3) (neighbor : Int) (transform : T) :
    Signature T KP P3 :=
  { s with neighbors := mapInsert neighbor transform s.neighbors,
           neighborsModified := true }

/-- Embeds `Signature::removeNeighbor`: `count = _neighbors.erase(id); if(count)
_neighborsModified = true;`. -/
def removeNeighbor (s : Signature T KP P3) (neighborId : Int) :
    Signature T KP P3 :=
  let count : Nat := if (s.neighbors neighborId).isSome then 1 else 0
  { s with neighbors := mapErase neighborId s.neighbors,
           neighborsModified := if count ≠ 0 then true else s.neighborsModified }

/-- Embeds `Signature::changeNeighborIds`: if `idFrom` is bound to `t`, erase it and
`insert(pair(idTo, t))`, setting the flag; otherwise do nothing. -/
def changeNeighborIds (s : Signature T KP P3) (idFrom idTo : Int) :
    Signature T KP P3 :=
  match s.neighbors idFrom with
  | some t =>
      { s with neighbors := mapInsert idTo t (mapErase idFrom s.neighbors),
               neighborsModified := true }
  | none => s

/-- Embeds `Signature::addLoopClosureId`: `if(id && _loopClosureIds.insert(pair(id,
transform)).second) _neighborsModified = true;`. Short-circuit: nothing at all
happens when `id == 0`; otherwise the insert happens and the flag is set only
when the insert actually took place. -/
def addLoopClosureId (s : Signature T KP P3) (loopClosureId : Int)
    (transform : T) : Signature T KP P3 :=
  if loopClosureId ≠ 0 then
    let second := (s.loopClosureIds loopClosureId).isNone
    { s with loopClosureIds := mapInsert loopClosureId transform s.loopClosureIds,
             neighborsModified := if second then true else s.neighborsModified }
  else s

/-- Embeds `Signature::addChildLoopClosureId`: same as `addLoopClosureId` on
`_childLoopClosureIds`. -/
def addChildLoopClosureId (s : Signature T KP P3) (childLoopClosureId : Int)
    (transform : T) : Signature T KP P3 :=
  if childLoopClosureId ≠ 0 then
    let second := (s.childLoopClosureIds childLoopClosureId).isNone
    { s with childLoopClosureIds :=
               mapInsert childLoopClosureId transform s.childLoopClosureIds,
             neighborsModified := if second then true else s.neighborsModified }
  else s

/-- Embeds `Signature::changeLoopClosureId`: the `changeNeighborIds` move applied to
`_loopClosureIds` only. -/
def changeLoopClosureId (s : Signature T KP P3) (idFrom idTo : Int) :
    Signature T KP P3 :=
  match s.loopClosureIds idFrom with
  | some t =>
      { s with loopClosureIds := mapInsert idTo t (mapErase idFrom s.loopClosureIds),
               neighborsModified := true }
  | none => s

/-- Embeds `Signature::compareTo(s)`: zero when either words map is empty; otherwise
`findPairs(s->getWords(), _words, pairs)` and
`similarity = pairs.size() / totalWords` with
`totalWords = _words.size() > words.size() ? _words.size() : words.size()`.
The external `EpipolarGeometry::findPairs` is passed in uninterpreted. -/
def compareTo (findPairs : MMap KP → MMap KP → List (Int × KP × KP))
    (self other : Signature T KP P3) : ℚ :=
  let words := other.words
  if words.length ≠ 0 ∧ self.words.length ≠ 0 then
    let totalWords : Nat :=
      if self.words.length > words.length then self.words.length else words.length
    let pairs := findPairs words self.words
    (pairs.length : ℚ) / (totalWords : ℚ)
  else 0

/-- Modelled from the spec: the declaration of the `_wordsChanged` member lives
in `Signature.h`, which is not among the given sources. The spec describes it
as an append-only ledger mapping an old identifier to the new identifier it was
remapped to, growing monotonically; accordingly an insertion appends one
`(oldId, newId)` entry. -/
def ledgerInsert (l : List (Int × Int)) (oldId newId : Int) :
    List (Int × Int) :=
  l ++ [(oldId, newId)]

/-- Embeds `Signature::changeWordsRef`: collect the keypoints under `oldWordId`; if
none, do nothing; otherwise collect the 3D points under `oldWordId`, erase
`oldWordId` from both multimaps, record `(oldWordId, activeWordId)` in the
ledger, and re-insert every collected entry under `activeWordId`. -/
def changeWordsRef (s : Signature T KP P3) (oldWordId activeWordId : Int) :
    Signature T KP P3 :=
  let kps := uValues s.words oldWordId
  if kps.length ≠ 0 then
    let pts := uValues s.words3 oldWordId
    { s with words := mmErase s.words oldWordId ++
               kps.map (fun kp => (activeWordId, kp)),
             words3 := mmErase s.words3 oldWordId ++
               pts.map (fun pt => (activeWordId, pt)),
             wordsChanged := ledgerInsert s.wordsChanged oldWordId activeWordId }
  else s

/-- Embeds `Signature::isBadSignature`: `!_words.size()`. -/
def isBadSignature (s : Signature T KP P3) : Bool :=
  s.words.length == 0

/-- Embeds `Signature::removeAllWords`: clears both feature multimaps. -/
def removeAllWords (s : Signature T KP P3) : Signature T KP P3 :=
  { s with words := [], words3 := [] }

/-- Embeds `Signature::removeWord`: erases `wordId` from both feature multimaps. -/
def removeWord (s : Signature T KP P3) (wordId : Int) : Signature T KP P3 :=
  { s with words := mmErase s.words wordId,
           words3 := mmErase s.words3 wordId }

/-- Embeds `Signature::setDepth`: `UASSERT_MSG(depth.empty() || (!depth.empty() &&
fx > 0 && fy > 0 && cx >= 0 && cy >= 0), ...)`, then replace the depth buffer
and the four intrinsics. `none` models the fatal assertion. -/
def setDepth (s : Signature T KP P3) (depth : List Nat)
    (fx fy cx cy : ℚ) : Option (Signature T KP P3) :=
  if depth.isEmpty ∨ (¬ depth.isEmpty ∧ 0 < fx ∧ 0 < fy ∧ 0 ≤ cx ∧ 0 ≤ cy) then
    some { s with depth := depth, fx := fx, fy := fy, cx := cx, cy := cy }
  else none

end Signature

/-- The lock-step invariant of the spec: for every identifier the number of
entries in `words` equals the number of entries in `words3`. -/
def WordsInv {T KP P3 : Type} (s : Signature T KP P3) : Prop :=
  ∀ k, keyCount s.words k = keyCount s.words3 k

/-- A concrete node used to exercise the operations: neighbor edges
{1 ↦ 10, 2 ↦ 20}, loop closure {3 ↦ 30}, words under identifiers 5 and 7 with
matching 3D points. -/
def exSig : Signature Int Int Int where
  id := 1
  mapId := 0
  weight := 0
  saved := false
  modified := true
  neighborsModified := false
  enabled := false
  words := [(5, 10), (7, 11)]
  words3 := [(5, 20), (7, 21)]
  wordsChanged := []
  image := []
  depth := []
  depth2D := []
  fx := 1
  fy := 1
  cx := 0
  cy := 0
  pose := 0
  localTransform := 0
  neighbors := fun k => if k = 1 then some 10 else if k = 2 then some 20 else none
  loopClosureIds := fun k => if k = 3 then some 30 else none
  childLoopClosureIds := fun _ => none

/-- A second concrete node carrying a single word. -/
def exSig2 : Signature Int Int Int :=
  { exSig with words := [(5, 12)], words3 := [(5, 22)],
               neighbors := fun _ => none, loopClosureIds := fun _ => none }

/-- A concrete node with no words at all. -/
def emptySig : Signature Int Int Int :=
  { exSig with words := [], words3 := [] }

/-- A concrete stand-in for the external pairer, returning one correspondence. -/
def onePair : MMap Int → MMap Int → List (Int × Int × Int) :=
  fun _ _ => [(5, 10, 12)]

/-- The node obtained from `exSig` by a successful `setDepth` call. -/
def exSigDepth : Signature Int Int Int :=
  { exSig with depth := [9], fx := 2, fy := 2, cx := 1, cy := 1 }

variable {T KP P3 : Type}

open Signature

/-- Lookup of `mapInsert` at the inserted key. -/
theorem mapInsert_self {V : Type} (k : Int) (v : V) (m : KMap V) :
    mapInsert k v m k = some ((m k).getD v) := by
  simp [mapInsert]

/-- Lookup of `mapInsert` away from the inserted key. -/
theorem mapInsert_other {V : Type} {k j : Int} (v : V) (m : KMap V)
    (h : j ≠ k) : mapInsert k v m j = m j := by
  simp [mapInsert, h]

/-- Inserting on a key that is already bound leaves the map unchanged. -/
theorem mapInsert_present {V : Type} {m : KMap V} {k : Int} {w : V} (v : V)
    (h : m k = some w) : mapInsert k v m = m := by
  funext j
  by_cases hj : j = k
  · subst hj; simp [mapInsert, h]
  · simp [mapInsert, hj]

/-- Erasing an absent key leaves the map unchanged. -/
theorem mapErase_absent {V : Type} {m : KMap V} {k : Int}
    (h : m k = none) : mapErase k m = m := by
  funext j
  by_cases hj : j = k
  · subst hj; simp [mapErase, h]
  · simp [mapErase, hj]

/-- C1 as stated is false: `addNeighbor` does not overwrite the stored
transform of an existing edge. On `exSig`, whose edge to node 1 stores
transform 10, `addNeighbor 1 20` leaves transform 10 in place. -/
theorem addNeighbor_no_overwrite :
    (exSig.addNeighbor 1 20).neighbors 1 = some 10 ∧
    ¬ (exSig.addNeighbor 1 20).neighbors 1 = some 20 := by
  refine ⟨by decide, by decide⟩

/-- C1 (amended): `addNeighbor(id, transform)` inserts the edge when absent,
keeps the previously stored transform when an edge with that id already exists
(the argument transform is discarded), leaves every other edge unchanged, and
in every case — including when the stored value is unchanged — sets
`neighborsModified` to true. -/
theorem addNeighbor_spec (s : Signature T KP P3) (n : Int) (t : T) :
    ((s.addNeighbor n t).neighborsModified = true)
    ∧ (s.neighbors n = none → (s.addNeighbor n t).neighbors n = some t)
    ∧ (∀ t0, s.neighbors n = some t0 → (s.addNeighbor n t).neighbors n = some t0)
    ∧ (∀ k, k ≠ n → (s.addNeighbor n t).neighbors k = s.neighbors k) := by
  refine ⟨rfl, ?_, ?_, ?_⟩
  · intro h; simp [addNeighbor, mapInsert, h]
  · intro t0 h; simp [addNeighbor, mapInsert, h]
  · intro k hk; simp [addNeighbor, mapInsert, hk]

/-- Witness for the amended C1 at concrete inputs. -/
theorem addNeighbor_spec_witness :
    (exSig.addNeighbor 4 40).neighbors 4 = some 40 ∧
    (exSig.addNeighbor 1 20).neighbors 1 = some 10 ∧
    (exSig.addNeighbor 4 40).neighbors 1 = some 10 := by
  refine ⟨?_, ?_, ?_⟩
  · exact (addNeighbor_spec exSig 4 40).2.1 (by decide)
  · exact (addNeighbor_spec exSig 1 20).2.2.1 10 (by decide)
  · exact (addNeighbor_spec exSig 4 40).2.2.2 1 (by decide)

/-- C8: `removeNeighbor` erases the edge when present and sets
`neighborsModified` only when an entry was actually removed; an absent key
leaves the node entirely unchanged, and calling `removeNeighbor k` a second
time leaves the flag exactly as the first call left it. -/
theorem removeNeighbor_spec (s : Signature T KP P3) (k : Int) :
    ((s.neighbors k).isSome →
      (s.removeNeighbor k).neighbors k = none
      ∧ (s.removeNeighbor k).neighborsModified = true)
    ∧ ((s.neighbors k).isNone → s.removeNeighbor k = s)
    ∧ (∀ j, j ≠ k → (s.removeNeighbor k).neighbors j = s.neighbors j)
    ∧ (((s.removeNeighbor k).removeNeighbor k).neighborsModified
        = (s.removeNeighbor k).neighborsModified) := by
  refine ⟨?_, ?_, ?_, ?_⟩
  · intro h
    refine ⟨by simp [removeNeighbor, mapErase], by simp [removeNeighbor, h]⟩
  · intro h
    have hn : s.neighbors k = none := by
      cases hm : s.neighbors k
      · rfl
      · rw [hm] at h; simp at h
    unfold removeNeighbor
    rw [mapErase_absent hn]
    simp [hn]
  · intro j hj
    simp [removeNeighbor, mapErase, hj]
  · simp [removeNeighbor, mapErase]

/-- Witness for C8 at concrete inputs. -/
theorem removeNeighbor_spec_witness :
    (exSig.removeNeighbor 1).neighbors 1 = none ∧
    (exSig.removeNeighbor 1).neighborsModified = true ∧
    exSig.removeNeighbor 5 = exSig := by
  refine ⟨?_, ?_, ?_⟩
  · exact ((removeNeighbor_spec exSig 1).1 (by decide)).1
  · exact ((removeNeighbor_spec exSig 1).1 (by decide)).2
  · exact (removeNeighbor_spec exSig 5).2.1 (by decide)

/-- C7 as stated is false: on `exSig`, whose neighbor edges are
{1 ↦ 10, 2 ↦ 20}, `changeNeighborIds 1 2` removes the edge to 1 but does not
re-insert its transform under key 2 — the pre-existing edge to 2 keeps its
own transform 20 and transform 10 is discarded. -/
theorem changeNeighborIds_no_reinsert :
    (exSig.changeNeighborIds 1 2).neighbors 1 = none ∧
    (exSig.changeNeighborIds 1 2).neighbors 2 = some 20 ∧
    ¬ (exSig.changeNeighborIds 1 2).neighbors 2 = some 10 := by
  refine ⟨by decide, by decide, by decide⟩

/-- C7 (amended): if no edge to `a` exists, `changeNeighborIds a b` leaves the
node (map and flag) unchanged; if an edge to `a` exists, it removes that edge,
re-inserts its transform under key `b` only when `b` was not already bound (an
existing edge to `b` keeps its own transform), and sets `neighborsModified`
to true. -/
theorem changeNeighborIds_spec (s : Signature T KP P3) (a b : Int) :
    (s.neighbors a = none → s.changeNeighborIds a b = s)
    ∧ (∀ t, s.neighbors a = some t →
        (s.changeNeighborIds a b).neighborsModified = true
        ∧ (a ≠ b → (s.changeNeighborIds a b).neighbors a = none)
        ∧ (a ≠ b → s.neighbors b = none →
            (s.changeNeighborIds a b).neighbors b = some t)
        ∧ (∀ t0, a ≠ b → s.neighbors b = some t0 →
            (s.changeNeighborIds a b).neighbors b = some t0)
        ∧ (a = b → (s.changeNeighborIds a b).neighbors a = some t)
        ∧ (∀ k, k ≠ a → k ≠ b →
            (s.changeNeighborIds a b).neighbors k = s.neighbors k)) := by
  constructor
  · intro h; unfold changeNeighborIds; rw [h]
  · intro t h
    refine ⟨?_, ?_, ?_, ?_, ?_, ?_⟩
    · simp [changeNeighborIds, h]
    · intro hab
      simp [changeNeighborIds, h, mapInsert, mapErase, hab]
    · intro hab hb
      simp [changeNeighborIds, h, mapInsert, mapErase, hb, Ne.symm hab]
    · intro t0 hab hb
      simp [changeNeighborIds, h, mapInsert, mapErase, hb, Ne.symm hab]
    · intro hab
      subst hab
      simp [changeNeighborIds, h, mapInsert, mapErase]
    · intro k hka hkb
      simp [changeNeighborIds, h, mapInsert, mapErase, hka, hkb]

/-- Witness for the amended C7 at concrete inputs. -/
theorem changeNeighborIds_spec_witness :
    exSig.changeNeighborIds 5 9 = exSig ∧
    (exSig.changeNeighborIds 1 4).neighbors 4 = some 10 ∧
    (exSig.changeNeighborIds 1 4).neighborsModified = true := by
  refine ⟨?_, ?_, ?_⟩
  · exact (changeNeighborIds_spec exSig 5 9).1 (by decide)
  · exact ((changeNeighborIds_spec exSig 1 4).2 10 (by decide)).2.2.1
      (by decide) (by decide)
  · exact ((changeNeighborIds_spec exSig 1 4).2 10 (by decide)).1

/-- C9: `changeLoopClosureId` applies exactly the move semantics of
`changeNeighborIds` to the `loopClosureIds` map only: both the
`childLoopClosureIds` map and the `neighbors` map are unchanged by the call,
whether or not `idFrom` is present. -/
theorem changeLoopClosureId_spec (s : Signature T KP P3) (a b : Int) :
    (s.changeLoopClosureId a b).childLoopClosureIds = s.childLoopClosureIds
    ∧ (s.changeLoopClosureId a b).neighbors = s.neighbors
    ∧ (s.changeLoopClosureId a b).loopClosureIds
        = (changeNeighborIds { s with neighbors := s.loopClosureIds } a b).neighbors
    ∧ (s.changeLoopClosureId a b).neighborsModified
        = (changeNeighborIds { s with neighbors := s.loopClosureIds } a b).neighborsModified := by
  cases h : s.loopClosureIds a <;>
    simp [changeLoopClosureId, changeNeighborIds, h]

/-- C5: loop-closure edge insertion is first-writer-wins: `addLoopClosureId`
(and `addChildLoopClosureId`) inserts only when the id is nonzero and the key
is not already present, setting `neighborsModified` only on a successful first
insertion; calls with id 0 or a duplicate id leave the node unchanged. -/
theorem addLoopClosureId_spec (s : Signature T KP P3) (lid : Int) (t : T) :
    (s.addLoopClosureId 0 t = s)
    ∧ (s.addChildLoopClosureId 0 t = s)
    ∧ (lid ≠ 0 → s.loopClosureIds lid = none →
        (s.addLoopClosureId lid t).loopClosureIds lid = some t
        ∧ (s.addLoopClosureId lid t).neighborsModified = true
        ∧ (∀ k, k ≠ lid →
            (s.addLoopClosureId lid t).loopClosureIds k = s.loopClosureIds k)
        ∧ (s.addLoopClosureId lid t).neighbors = s.neighbors
        ∧ (s.addLoopClosureId lid t).childLoopClosureIds = s.childLoopClosureIds)
    ∧ (lid ≠ 0 → ∀ w, s.loopClosureIds lid = some w → s.addLoopClosureId lid t = s)
    ∧ (lid ≠ 0 → s.childLoopClosureIds lid = none →
        (s.addChildLoopClosureId lid t).childLoopClosureIds lid = some t
        ∧ (s.addChildLoopClosureId lid t).neighborsModified = true)
    ∧ (lid ≠ 0 → ∀ w, s.childLoopClosureIds lid = some w →
        s.addChildLoopClosureId lid t = s) := by
  refine ⟨?_, ?_, ?_, ?_, ?_, ?_⟩
  · simp [addLoopClosureId]
  · simp [addChildLoopClosureId]
  · intro h0 habs
    refine ⟨?_, ?_, ?_, ?_, ?_⟩
    · simp [addLoopClosureId, h0, mapInsert, habs]
    · simp [addLoopClosureId, h0, habs]
    · intro k hk; simp [addLoopClosureId, h0, mapInsert, hk]
    · simp [addLoopClosureId, h0]
    · simp [addLoopClosureId, h0]
  · intro h0 w hw
    unfold addLoopClosureId
    rw [if_pos h0, mapInsert_present t hw]
    simp [hw]
  · intro h0 habs
    refine ⟨?_, ?_⟩
    · simp [addChildLoopClosureId, h0, mapInsert, habs]
    · simp [addChildLoopClosureId, h0, habs]
  · intro h0 w hw
    unfold addChildLoopClosureId
    rw [if_pos h0, mapInsert_present t hw]
    simp [hw]

/-- Witness for C5 at concrete inputs. -/
theorem addLoopClosureId_spec_witness :
    (exSig.addLoopClosureId 9 90).loopClosureIds 9 = some 90 ∧
    exSig.addLoopClosureId 3 99 = exSig ∧
    exSig.addLoopClosureId 0 7 = exSig ∧
    (exSig.addChildLoopClosureId 8 80).childLoopClosureIds 8 = some 80 := by
  refine ⟨?_, ?_, ?_, ?_⟩
  · exact ((addLoopClosureId_spec exSig 9 90).2.2.1 (by decide) (by decide)).1
  · exact (addLoopClosureId_spec exSig 3 99).2.2.2.1 (by decide) 30 (by decide)
  · exact (addLoopClosureId_spec exSig 0 7).1
  · exact ((addLoopClosureId_spec exSig 8 80).2.2.2.2.1 (by decide) (by decide)).1

/-- C4: `setDepth` hits the fatal assertion exactly when the depth buffer is
non-empty and the intrinsics violate `fx > 0 ∧ fy > 0 ∧ cx ≥ 0 ∧ cy ≥ 0`; an
empty depth accepts any intrinsics, and on success the depth buffer and the
four intrinsics are replaced by the arguments. -/
theorem setDepth_spec (s : Signature T KP P3) (d : List Nat) (fx fy cx cy : ℚ) :
    (s.setDepth d fx fy cx cy = none ↔
      d ≠ [] ∧ ¬(0 < fx ∧ 0 < fy ∧ 0 ≤ cx ∧ 0 ≤ cy))
    ∧ (d = [] → (s.setDepth d fx fy cx cy).isSome = true)
    ∧ (∀ s', s.setDepth d fx fy cx cy = some s' →
        s'.depth = d ∧ s'.fx = fx ∧ s'.fy = fy ∧ s'.cx = cx ∧ s'.cy = cy) := by
  have hiff : (d.isEmpty = true) ↔ d = [] := by cases d <;> simp
  by_cases hd : d = []
  · have hs : s.setDepth d fx fy cx cy
        = some { s with depth := d, fx := fx, fy := fy, cx := cx, cy := cy } := by
      unfold setDepth
      rw [if_pos (Or.inl (hiff.mpr hd))]
    refine ⟨?_, ?_, ?_⟩
    · rw [hs]; simp [hd]
    · intro _; rw [hs]; rfl
    · intro s' h
      rw [hs] at h
      injection h with h
      subst h
      exact ⟨rfl, rfl, rfl, rfl, rfl⟩
  · by_cases hv : (0 < fx ∧ 0 < fy ∧ 0 ≤ cx ∧ 0 ≤ cy)
    · have hs : s.setDepth d fx fy cx cy
          = some { s with depth := d, fx := fx, fy := fy, cx := cx, cy := cy } := by
        unfold setDepth
        rw [if_pos (Or.inr ⟨fun hh => hd (hiff.mp hh), hv⟩)]
      refine ⟨?_, ?_, ?_⟩
      · rw [hs]; simp [hv]
      · intro hh; exact absurd hh hd
      · intro s' h
        rw [hs] at h
        injection h with h
        subst h
        exact ⟨rfl, rfl, rfl, rfl, rfl⟩
    · have hs : s.setDepth d fx fy cx cy = none := by
        unfold setDepth
        rw [if_neg]
        rintro (h1 | ⟨_, h3⟩)
        · exact hd (hiff.mp h1)
        · exact hv h3
      refine ⟨?_, ?_, ?_⟩
      · rw [hs]; simp [hd, hv]
      · intro hh; exact absurd hh hd
      · intro s' h
        rw [hs] at h
        cases h

/-- Witness for C4: empty depth succeeds with all-zero intrinsics, non-empty
depth with all-zero intrinsics fails the assertion. -/
theorem setDepth_spec_witness :
    exSig.setDepth [1, 2, 3] 0 0 0 0 = none ∧
    (exSig.setDepth [] 0 0 0 0).isSome = true := by
  constructor
  · exact (setDepth_spec exSig [1, 2, 3] 0 0 0 0).1.mpr ⟨by decide, by decide⟩
  · exact (setDepth_spec exSig [] 0 0 0 0).2.1 rfl

/-- C10: under its precondition, `setDepth` changes only the depth buffer and
the four intrinsics; the `modified`, `saved` and `neighborsModified` flags,
the feature maps and ledger, all edge maps, and every other field are
unchanged — replacing the depth payload does not mark the node content-dirty. -/
theorem setDepth_frame (s : Signature T KP P3) (d : List Nat)
    (fx fy cx cy : ℚ) (s' : Signature T KP P3)
    (h : s.setDepth d fx fy cx cy = some s') :
    s'.modified = s.modified ∧ s'.saved = s.saved
    ∧ s'.neighborsModified = s.neighborsModified
    ∧ s'.words = s.words ∧ s'.words3 = s.words3
    ∧ s'.wordsChanged = s.wordsChanged
    ∧ s'.neighbors = s.neighbors ∧ s'.loopClosureIds = s.loopClosureIds
    ∧ s'.childLoopClosureIds = s.childLoopClosureIds
    ∧ s'.id = s.id ∧ s'.mapId = s.mapId ∧ s'.weight = s.weight
    ∧ s'.enabled = s.enabled ∧ s'.image = s.image ∧ s'.depth2D = s.depth2D
    ∧ s'.pose = s.pose ∧ s'.localTransform = s.localTransform
    ∧ s'.depth = d ∧ s'.fx = fx ∧ s'.fy = fy ∧ s'.cx = cx ∧ s'.cy = cy := by
  unfold setDepth at h
  split at h
  · injection h with h
    subst h
    exact ⟨rfl, rfl, rfl, rfl, rfl, rfl, rfl, rfl, rfl, rfl, rfl,
      rfl, rfl, rfl, rfl, rfl, rfl, rfl, rfl, rfl, rfl, rfl⟩
  · cases h

/-- Witness for C10 at a concrete successful call. -/
theorem setDepth_frame_witness :
    exSigDepth.modified = exSig.modified ∧ exSigDepth.depth = [9] := by
  have h := setDepth_frame exSig [9] 2 2 1 1 exSigDepth (by rfl)
  exact ⟨h.1, h.2.2.2.2.2.2.2.2.2.2.2.2.2.2.2.2.2.1⟩

/-- Per-key count distributes over append. -/
theorem keyCount_append {V : Type} (m1 m2 : MMap V) (k : Int) :
    keyCount (m1 ++ m2) k = keyCount m1 k + keyCount m2 k := by
  simp [keyCount, List.filter_append]

/-- Per-key count after erasing a key. -/
theorem keyCount_mmErase {V : Type} (m : MMap V) (a k : Int) :
    keyCount (mmErase m a) k = if k = a then 0 else keyCount m k := by
  induction m with
  | nil => simp [keyCount, mmErase]
  | cons p m ih =>
    simp only [keyCount, mmErase, List.filter_cons] at ih ⊢
    by_cases hpa : p.1 = a <;> by_cases hpk : p.1 = k <;>
      by_cases hka : k = a <;> simp_all [bne_iff_ne]

/-- Per-key count of a list of values all tagged with one key. -/
theorem keyCount_tag {V : Type} (l : List V) (b k : Int) :
    keyCount (l.map (fun v => (b, v))) k = if k = b then l.length else 0 := by
  induction l with
  | nil => simp [keyCount]
  | cons v l ih =>
    by_cases hkb : k = b
    · subst hkb
      simpa [keyCount, List.filter_cons] using ih
    · have hb : ((b == k) : Bool) = false :=
        beq_eq_false_iff_ne.mpr (fun hh => hkb hh.symm)
      simpa [keyCount, List.filter_cons, hb, hkb] using ih

/-- The values collected under a key are as many as the key's entries. -/
theorem length_uValues {V : Type} (m : MMap V) (k : Int) :
    (uValues m k).length = keyCount m k := by
  simp [uValues, keyCount]

/-- When the key has no 2D entries, `changeWordsRef` leaves the node
unchanged (even if `words3` still held entries under it). -/
theorem changeWordsRef_noop (s : Signature T KP P3) (a b : Int)
    (h : keyCount s.words a = 0) : s.changeWordsRef a b = s := by
  unfold changeWordsRef
  simp [length_uValues, h]

/-- Per-key count of `words` after a successful `changeWordsRef`. -/
theorem keyCount_changeWordsRef_words (s : Signature T KP P3) (a b k : Int)
    (h : keyCount s.words a ≠ 0) :
    keyCount (s.changeWordsRef a b).words k
      = (if k = a then 0 else keyCount s.words k)
        + (if k = b then keyCount s.words a else 0) := by
  have hlen : (uValues s.words a).length ≠ 0 := by
    simpa [length_uValues] using h
  simp only [changeWordsRef]
  rw [if_pos hlen]
  simp [keyCount_append, keyCount_mmErase, keyCount_tag, length_uValues]

/-- Per-key count of `words3` after a successful `changeWordsRef`. -/
theorem keyCount_changeWordsRef_words3 (s : Signature T KP P3) (a b k : Int)
    (h : keyCount s.words a ≠ 0) :
    keyCount (s.changeWordsRef a b).words3 k
      = (if k = a then 0 else keyCount s.words3 k)
        + (if k = b then keyCount s.words3 a else 0) := by
  have hlen : (uValues s.words a).length ≠ 0 := by
    simpa [length_uValues] using h
  simp only [changeWordsRef]
  rw [if_pos hlen]
  simp [keyCount_append, keyCount_mmErase, keyCount_tag, length_uValues]

/-- A successful `changeWordsRef` appends exactly one ledger entry. -/
theorem changeWordsRef_ledger (s : Signature T KP P3) (a b : Int)
    (h : keyCount s.words a ≠ 0) :
    (s.changeWordsRef a b).wordsChanged = s.wordsChanged ++ [(a, b)] := by
  have hlen : (uValues s.words a).length ≠ 0 := by
    simpa [length_uValues] using h
  simp only [changeWordsRef]
  rw [if_pos hlen]
  rfl

/-- C2: if `words` and `words3` agree in per-identifier cardinality, then
every feature-map operation — `changeWordsRef`, `removeWord` and
`removeAllWords` — preserves that invariant. -/
theorem wordsInv_preserved (s : Signature T KP P3) (h : WordsInv s) :
    (∀ a b, WordsInv (s.changeWordsRef a b))
    ∧ (∀ w, WordsInv (s.removeWord w))
    ∧ WordsInv s.removeAllWords := by
  refine ⟨?_, ?_, ?_⟩
  · intro a b k
    by_cases ha : keyCount s.words a = 0
    · rw [changeWordsRef_noop s a b ha]; exact h k
    · rw [keyCount_changeWordsRef_words s a b k ha,
        keyCount_changeWordsRef_words3 s a b k ha, h k, h a]
  · intro w k
    simp only [removeWord, keyCount_mmErase]
    rw [h k]
  · intro k
    rfl

/-- The example node satisfies the lock-step invariant. -/
theorem exSig_wordsInv : WordsInv exSig := by
  intro k
  by_cases h5 : k = 5
  · subst h5; decide
  · by_cases h7 : k = 7
    · subst h7; decide
    · have h5b : (((5 : Int) == k) : Bool) = false :=
        beq_eq_false_iff_ne.mpr (fun hh => h5 hh.symm)
      have h7b : (((7 : Int) == k) : Bool) = false :=
        beq_eq_false_iff_ne.mpr (fun hh => h7 hh.symm)
      simp [exSig, keyCount, List.filter_cons, h5b, h7b]

/-- Witness for C2 at a concrete node. -/
theorem wordsInv_preserved_witness :
    keyCount (exSig.changeWordsRef 5 9).words 9
      = keyCount (exSig.changeWordsRef 5 9).words3 9 ∧
    keyCount (exSig.removeWord 5).words 5
      = keyCount (exSig.removeWord 5).words3 5 :=
  ⟨(wordsInv_preserved exSig exSig_wordsInv).1 5 9 9,
   (wordsInv_preserved exSig exSig_wordsInv).2.1 5 5⟩

/-- C3: for distinct identifiers `a ≠ b`, `changeWordsRef a b` is a no-op when
`a` has no entries in `words`; otherwise it moves every 2D and every 3D entry
from key `a` to key `b` preserving multiplicity — count of `b` after equals
count of `b` before plus count of `a` before, count of `a` after is 0 — and
appends exactly one `(a, b)` entry to the `wordsChanged` ledger. -/
theorem changeWordsRef_spec (s : Signature T KP P3) (a b : Int) (hab : a ≠ b) :
    (keyCount s.words a = 0 → s.changeWordsRef a b = s)
    ∧ (keyCount s.words a ≠ 0 →
        keyCount (s.changeWordsRef a b).words b
          = keyCount s.words b + keyCount s.words a
        ∧ keyCount (s.changeWordsRef a b).words a = 0
        ∧ keyCount (s.changeWordsRef a b).words3 b
          = keyCount s.words3 b + keyCount s.words3 a
        ∧ keyCount (s.changeWordsRef a b).words3 a = 0
        ∧ (s.changeWordsRef a b).wordsChanged = s.wordsChanged ++ [(a, b)]) := by
  refine ⟨fun h => changeWordsRef_noop s a b h, ?_⟩
  intro h
  refine ⟨?_, ?_, ?_, ?_, changeWordsRef_ledger s a b h⟩
  · rw [keyCount_changeWordsRef_words s a b b h]
    simp [Ne.symm hab]
  · rw [keyCount_changeWordsRef_words s a b a h]
    simp [hab]
  · rw [keyCount_changeWordsRef_words3 s a b b h]
    simp [Ne.symm hab]
  · rw [keyCount_changeWordsRef_words3 s a b a h]
    simp [hab]

/-- Witness for C3 at concrete inputs. -/
theorem changeWordsRef_spec_witness :
    keyCount (exSig.changeWordsRef 5 9).words 9
      = keyCount exSig.words 9 + keyCount exSig.words 5 ∧
    (exSig.changeWordsRef 5 9).wordsChanged = exSig.wordsChanged ++ [(5, 9)] ∧
    exSig.changeWordsRef 4 9 = exSig :=
  ⟨((changeWordsRef_spec exSig 5 9 (by decide)).2 (by decide)).1,
   ((changeWordsRef_spec exSig 5 9 (by decide)).2 (by decide)).2.2.2.2,
   (changeWordsRef_spec exSig 4 9 (by decide)).1 (by decide)⟩

/-- C6: `compareTo` returns exactly 0 when either node's words map is empty;
otherwise, with the external pairer treated as an uninterpreted function and
invoked as `pairer(other.words, self.words)`, it returns
`|pairs| / max(|self.words|, |other.words|)`. -/
theorem compareTo_spec (pairer : MMap KP → MMap KP → List (Int × KP × KP))
    (self other : Signature T KP P3) :
    (self.words = [] ∨ other.words = [] → compareTo pairer self other = 0)
    ∧ (self.words ≠ [] → other.words ≠ [] →
        compareTo pairer self other
          = ((pairer other.words self.words).length : ℚ)
            / ((max self.words.length other.words.length : ℕ) : ℚ)) := by
  constructor
  · intro h
    rcases h with h | h <;> simp [compareTo, h]
  · intro h1 h2
    have hl1 : self.words.length ≠ 0 := by
      simpa [List.length_eq_zero] using h1
    have hl2 : other.words.length ≠ 0 := by
      simpa [List.length_eq_zero] using h2
    have hmax : (if self.words.length > other.words.length
        then self.words.length else other.words.length)
        = max self.words.length other.words.length := by
      rcases Nat.lt_or_ge other.words.length self.words.length with hlt | hge
      · rw [if_pos hlt, Nat.max_eq_left (Nat.le_of_lt hlt)]
      · rw [if_neg (Nat.not_lt.mpr hge), Nat.max_eq_right hge]
    simp only [compareTo]
    rw [if_pos ⟨hl2, hl1⟩, hmax]

/-- Witness for C6 at concrete inputs: a one-pair pairer on nodes with 2 and 1
words gives 1/2; an empty other node gives 0. -/
theorem compareTo_spec_witness :
    compareTo onePair exSig exSig2 = 1 / 2 ∧
    compareTo onePair exSig emptySig = 0 := by
  constructor
  · rw [(compareTo_spec onePair exSig exSig2).2 (by decide) (by decide)]
    norm_num [onePair, exSig, exSig2]
  · exact (compareTo_spec onePair exSig emptySig).1 (Or.inr (by decide))

end RtabmapSig
